import Mathlib

/-!
Verification development for the StreetViewDownloader core
(`src/streetscope/download/streetview_downloader.py`).

The downloader reads a column of panorama identifiers from a CSV
(`_read_pids`), filters out identifiers it believes are already
materialized (`_check_already`), then loops over the remaining
identifiers accumulating them into task lists that are dispatched to
`ImageTool.dwl_multiple` whenever the loop index `i` satisfies
`i % nthreads == 0 and i != 0` (`download_gsv`, lines 261-279).  On a
dispatch failure the error counter grows by `nthreads` and the failed
task list is appended to a log file (`_log_write`); on success the image
counter grows by `nthreads`.  After the loop, the configured projection
styles are validated and each one is applied by `_transform_image`.

Everything below is translated from that source file.  Components of
this repository that live outside `src/` (the tile fetcher
`ImageTool` and the projection engine `ImageTransformer`) are modelled
from the specification and marked as such in their doc comments.
-/

namespace Streetscope

/-- Embedding of Python `name.split(".")[0]` as used in
`StreetViewDownloader._check_already` (line 96): the characters of the
name strictly before its first `.` (the whole name when it has no dot). -/
def baseName (s : String) : String :=
  ⟨s.data.takeWhile (fun c => c ≠ '.')⟩

/-- Embedding of `StreetViewDownloader._check_already` (lines 93-101):
`listing` is `os.listdir(self.dir_output)`, the entries of the *top-level*
output directory; the function keeps, in order, the requested panorama ids
whose name does not equal the base name of any listing entry. -/
def check_already (listing : List String) (all_panoids : List String) : List String :=
  let name_r := listing.map baseName
  all_panoids.filter (fun pid => !(name_r.contains pid))

/-- First-occurrence deduplication with an accumulator of already seen
values; `uniqueFirstAux seen l` drops the elements of `l` that are in
`seen` or occurred earlier in `l`. -/
def uniqueFirstAux : List String → List String → List String
  | _, [] => []
  | seen, x :: xs =>
    if x ∈ seen then uniqueFirstAux seen xs
    else x :: uniqueFirstAux (x :: seen) xs

/-- Embedding of `StreetViewDownloader._read_pids` (lines 87-91):
`pd.read_csv(...).iloc[:,0].unique().tolist()` — the values of the CSV's
first column with duplicates removed, keeping the first occurrence of each
value in order (the documented behavior of `pandas.unique`). -/
def read_pids (csv_first_col : List String) : List String :=
  uniqueFirstAux [] csv_first_col

/-- Embedding of `StreetViewDownloader._log_write` (lines 114-117): the
log file is opened in append mode (`'a+'`) and `pid + '\n'` is written for
each pid, so the new contents are the old contents followed by one
newline-terminated line per pid. -/
def log_write (contents : String) (pids : List String) : String :=
  pids.foldl (fun c pid => c ++ pid ++ "\n") contents

/-- The mutable state of the loop in `download_gsv` (lines 261-279):
the accumulating task list `task_pids`, the counters `errors` and
`img_num`, the contents of the log file, and (as an observation of the
calls made to `ImageTool.dwl_multiple`) the list of dispatched batches. -/
structure DlState where
  task_pids : List String
  errors : Nat
  img_num : Nat
  log : String
  dispatched : List (List String)
deriving DecidableEq

/-- The batch-boundary step of `download_gsv` (lines 266-279): dispatch
the accumulated `task_pids` to `ImageTool.dwl_multiple`; on success add
`nthreads` to `img_num`; on any exception add `nthreads` to `errors` and,
when a log path is configured, append the task list to the log.  In both
cases the task list is reset to `[]`.  `fails b` says whether
`dwl_multiple` raises for batch `b`. -/
def stepBatch (nthreads : Nat) (log_path : String) (fails : List String → Bool)
    (s : DlState) : DlState :=
  if fails s.task_pids then
    { task_pids := [],
      errors := s.errors + nthreads,
      img_num := s.img_num,
      log := if log_path ≠ "" then log_write s.log s.task_pids else s.log,
      dispatched := s.dispatched ++ [s.task_pids] }
  else
    { task_pids := [],
      errors := s.errors,
      img_num := s.img_num + nthreads,
      log := s.log,
      dispatched := s.dispatched ++ [s.task_pids] }

/-- The loop `for i in range(len(panoids_rest))` of `download_gsv`
(lines 263-279): when `i % nthreads != 0 or i == 0` the element at index
`i` is appended to `task_pids`; otherwise the accumulated task list is
dispatched (`stepBatch`) and — faithfully to the source — the element at
index `i` is *not* appended anywhere.  A trailing non-empty task list is
never dispatched. -/
def gsvLoopGo (nthreads : Nat) (log_path : String) (fails : List String → Bool) :
    Nat → List String → DlState → DlState
  | _, [], s => s
  | i, x :: xs, s =>
    if i % nthreads ≠ 0 ∨ i = 0 then
      gsvLoopGo nthreads log_path fails (i + 1) xs
        { s with task_pids := s.task_pids ++ [x] }
    else
      gsvLoopGo nthreads log_path fails (i + 1) xs
        (stepBatch nthreads log_path fails s)

/-- The whole download loop of `download_gsv` over the pending identifier
list, starting from an empty task list and zero counters, with `log0` the
prior contents of the log file. -/
def gsvLoop (nthreads : Nat) (log_path : String) (fails : List String → Bool)
    (pids : List String) (log0 : String) : DlState :=
  gsvLoopGo nthreads log_path fails 0 pids
    { task_pids := [], errors := 0, img_num := 0, log := log0, dispatched := [] }

/-- The sequence of batches that `download_gsv` hands to
`ImageTool.dwl_multiple`, in dispatch order.  (Which batches are
dispatched does not depend on the failure oracle or on logging, so the
trivial oracle is used.) -/
def gsvBatches (nthreads : Nat) (pids : List String) : List (List String) :=
  (gsvLoop nthreads "" (fun _ => false) pids "").dispatched

/-- Embedding of the style test on line 284:
`style in ["perspective", "fisheye"]`. -/
def validStyle (style : String) : Bool :=
  style == "perspective" || style == "fisheye"

/-- Result of a `download_gsv` call: normal completion, or the
`ValueError` raised on line 285 for an unknown image style. -/
inductive GsvResult where
  | ok : GsvResult
  | valueError : GsvResult
deriving DecidableEq

/-- Observable outcome of `download_gsv`: the final loop state, the list
of styles actually passed to `_transform_image` (in order), and whether
the run ended normally or in the style `ValueError`. -/
structure GsvOutcome where
  state : DlState
  transformed : List String
  result : GsvResult
deriving DecidableEq

/-- Embedding of `StreetViewDownloader.download_gsv` (lines 243-288):
read the pid CSV column, filter against the top-level output-directory
listing, run the batching loop, and only then — after the whole download
phase — validate the configured image styles, raising `ValueError` when
one is invalid and otherwise transforming each style in order. -/
def download_gsv (nthreads : Nat) (log_path : String) (image_style : List String)
    (listing : List String) (csv_first_col : List String)
    (fails : List String → Bool) (log0 : String) : GsvOutcome :=
  let panoids := read_pids csv_first_col
  let panoids_rest := check_already listing panoids
  let s := gsvLoop nthreads log_path fails panoids_rest log0
  if image_style.length > 0 then
    if image_style.all validStyle then
      { state := s, transformed := image_style, result := GsvResult.ok }
    else
      { state := s, transformed := [], result := GsvResult.valueError }
  else
    { state := s, transformed := [], result := GsvResult.ok }

/-- `startsWithSeq pat s` is true when `pat` is an initial segment of `s`. -/
def startsWithSeq : List Char → List Char → Bool
  | [], _ => true
  | _ :: _, [] => false
  | p :: ps, c :: cs => p == c && startsWithSeq ps cs

/-- Fueled core of Python `str.replace`: scan the subject left to right,
replace each non-overlapping occurrence of `pat` by `rep`, and continue
after the replaced stretch without rescanning `rep`. -/
def replAllGo (pat rep : List Char) : Nat → List Char → List Char
  | _, [] => []
  | 0, s => s
  | fuel + 1, c :: cs =>
    if startsWithSeq pat (c :: cs) then
      rep ++ replAllGo pat rep fuel (List.drop (pat.length - 1) cs)
    else
      c :: replAllGo pat rep fuel cs

/-- Embedding of Python `s.replace(pat, rep)` for a non-empty pattern
(every pattern used in `_transform_image` is non-empty): each occurrence
consumes at least one character, so `s.length` is enough fuel. -/
def pyReplace (s pat rep : List Char) : List Char :=
  replAllGo pat rep s.length s

/-- `pyReplace` lifted to `String`. -/
def pyStrReplace (s pat rep : String) : String :=
  ⟨pyReplace s.data pat.data rep.data⟩

/-- Embedding of `process_image` in `_transform_image` (lines 226-229):
the output name placed in the style directory is the input name with
every occurrence of the substring `jpg` replaced by `png`
(`name.replace('jpg', 'png')`). -/
def path_output_name (name : String) : String :=
  pyStrReplace name "jpg" "png"

/-- Embedding of the perspective filename construction in
`_transform_image` (lines 221-223): `aspect_name = '%s--%s' % (9, 16)`
and the output path is `path_output.replace('.png',
'_Direction_%s_FOV_%s_aspect_%s_raw.png' % (theta, FOV, aspect_name))`. -/
def perspective_filename (name : String) (theta fov : Nat) : String :=
  pyStrReplace (path_output_name name) ".png"
    ("_Direction_" ++ toString theta ++ "_FOV_" ++ toString fov ++
      "_aspect_" ++ toString 9 ++ "--" ++ toString 16 ++ "_raw.png")

/-- One call to `ImageTransformer.get_perspective` made by the
perspective branch of `_transform_image`. -/
structure PerspectiveCall where
  theta : Nat
  fov : Nat
  pitch : Nat
  height : Nat
  width : Nat
deriving DecidableEq

/-- Embedding of the perspective branch of `_transform_image`
(lines 212-224): `thetas = [0, 90, 180, 270]`, `FOV = 90`,
`height = int(aspects_v[0] * show_size)` with `aspects_v[0] = 2.25`, and
`width = int(aspects_v[1] * show_size)` with `aspects_v[1] = 4`, pitch
fixed to `0`.  `2.25 = 9/4` is exact in binary floating point, so
`int(2.25 * show_size)` is `9 * show_size / 4` in integer division for
every realistic `show_size`. -/
def perspective_calls (show_size : Nat) : List PerspectiveCall :=
  [0, 90, 180, 270].map (fun theta =>
    { theta := theta, fov := 90, pitch := 0,
      height := 9 * show_size / 4, width := 4 * show_size })

/-- Modelled from the spec: `ImageTransformer.get_perspective`
(`streetscope/download/utils/transform_image.py`, which is not under
`src/`).  Per spec §4.3 the perspective operation is given a field of
view, heading, pitch and an output width/height and produces an image
with exactly the requested output dimensions; only the dimensions
`(height, width)` of the produced image are modelled. -/
def get_perspective_dims (_fov _theta _pitch height width : Nat) : Nat × Nat :=
  (height, width)

/-- The association heading ↦ produced image dimensions of the
perspective phase for one panorama at a given `show_size`. -/
def perspective_outputs (show_size : Nat) : List (Nat × Nat × Nat) :=
  (perspective_calls show_size).map (fun c =>
    (c.theta, get_perspective_dims c.fov c.theta c.pitch c.height c.width))

/-- The row-major tile grid coordinates (column, row) of an
`h_tiles × v_tiles` panorama. -/
def tileGrid (h_tiles v_tiles : Nat) : List (Nat × Nat) :=
  (List.range v_tiles).flatMap (fun row =>
    (List.range h_tiles).map (fun col => (col, row)))

/-- Modelled from the spec: the tile fetch-and-assemble routine
`ImageTool.dwl_multiple` (`streetscope/download/utils/imtool.py`, which
is not under `src/`).  Per spec §4.2, one request is issued per grid
coordinate; any single tile failure aborts the whole identifier and no
panorama (not even a partial one) is written; on full success the tiles
are composited in row-major order and the panorama is written.
`fetch c = none` means the request for coordinate `c` failed; the result
is the written panorama (its row-major tile list) or `none` when no file
is written. -/
def fetch_and_assemble {α : Type} (fetch : Nat × Nat → Option α)
    (h_tiles v_tiles : Nat) : Option (List α) :=
  if ((tileGrid h_tiles v_tiles).map fetch).all Option.isSome then
    some ((tileGrid h_tiles v_tiles).map fetch).reduceOption
  else none

/-- `random.sample(self.user_agent, self.nthreads)` (line 267) draws
elements of the pool at `k` pairwise-distinct positions.
`IsSample pool k out` says `out` is a possible result: the values of the
pool at `k` distinct in-range indices. -/
def IsSample (pool : List String) (k : Nat) (out : List String) : Prop :=
  ∃ idxs : List Nat, idxs.Nodup ∧ idxs.length = k ∧
    (∀ i ∈ idxs, i < pool.length) ∧ out = idxs.map (fun i => pool.getD i "")

/-- `hasSubstr pat s` is true when `pat` occurs as a contiguous substring
of `s`. -/
def hasSubstr (pat : List Char) : List Char → Bool
  | [] => pat.isEmpty
  | c :: cs => startsWithSeq pat (c :: cs) || hasSubstr pat cs

/-- One newline-terminated line per identifier: the text `_log_write`
adds to the log file for a failed batch. -/
def logLines : List String → String
  | [] => ""
  | pid :: pids => pid ++ "\n" ++ logLines pids

/-- A pattern that fits inside the left part of an append and starts
there also starts the left part alone. -/
theorem startsWithSeq_append_split (pat : List Char) :
    ∀ (u b : List Char), startsWithSeq pat (u ++ b) = true →
      pat.length ≤ u.length → startsWithSeq pat u = true := by
  induction pat with
  | nil => intro u b _ _; cases u <;> rfl
  | cons p ps ih =>
    intro u b h hlen
    cases u with
    | nil => simp at hlen
    | cons c cs =>
      simp only [List.cons_append, startsWithSeq, Bool.and_eq_true] at h ⊢
      refine ⟨h.1, ih cs b h.2 ?_⟩
      simp only [List.length_cons] at hlen
      omega

/-- A pattern longer than the left part of an append that starts at that
append continues, from position `u.length` on, as a prefix of the right
part. -/
theorem startsWithSeq_append_long (pat b : List Char) :
    ∀ (u : List Char), startsWithSeq pat (u ++ b) = true →
      u.length < pat.length →
      pat.drop u.length ≠ [] ∧ startsWithSeq (pat.drop u.length) b = true := by
  intro u
  induction u generalizing pat with
  | nil =>
    intro h hlen
    refine ⟨?_, h⟩
    intro hnil
    simp only [List.length_nil, List.drop_zero] at hlen hnil
    subst hnil
    simp at hlen
  | cons c cs ih =>
    intro h hlen
    cases pat with
    | nil => simp at hlen
    | cons p ps =>
      simp only [List.cons_append, startsWithSeq, Bool.and_eq_true] at h
      have hcs : cs.length < ps.length := by
        simp only [List.length_cons] at hlen
        omega
      simpa using ih ps h.2 hcs

/-- An occurrence of the pattern at an in-range position witnesses
`hasSubstr`. -/
theorem hasSubstr_of_drop (pat : List Char) :
    ∀ (s : List Char) (i : Nat), i < s.length →
      startsWithSeq pat (s.drop i) = true → hasSubstr pat s = true := by
  intro s
  induction s with
  | nil => intro i hi; simp at hi
  | cons c cs ih =>
    intro i hi h
    cases i with
    | zero =>
      simp only [List.drop_zero] at h
      simp [hasSubstr, h]
    | succ j =>
      have hj : j < cs.length := by
        simp only [List.length_cons] at hi
        omega
      have : hasSubstr pat cs = true := ih j hj (by simpa using h)
      simp [hasSubstr, this]

/-- If the pattern does not occur in `a` and no non-trivial tail of the
pattern starts `b`, then the pattern starts at no position inside the
`a` part of `a ++ b`. -/
theorem noOccur_shift (pat a b : List Char)
    (ha : hasSubstr pat a = false)
    (hstrad : ∀ j, 0 < j → pat.drop j ≠ [] →
      startsWithSeq (pat.drop j) b = false) :
    ∀ i, i < a.length → startsWithSeq pat ((a ++ b).drop i) = false := by
  intro i hi
  rw [Bool.eq_false_iff]
  intro hpre
  rw [List.drop_append_of_le_length (Nat.le_of_lt hi)] at hpre
  by_cases hfit : pat.length ≤ (a.drop i).length
  · have h1 : startsWithSeq pat (a.drop i) = true :=
      startsWithSeq_append_split pat (a.drop i) b hpre hfit
    have h2 : hasSubstr pat a = true := hasSubstr_of_drop pat a i hi h1
    rw [ha] at h2
    exact Bool.false_ne_true h2
  · have hlt : (a.drop i).length < pat.length := Nat.lt_of_not_le hfit
    obtain ⟨hne, hb⟩ := startsWithSeq_append_long pat b (a.drop i) hpre hlt
    have hj : 0 < (a.drop i).length := by
      rw [List.length_drop]
      omega
    have hc := hstrad (a.drop i).length hj hne
    rw [hb] at hc
    exact Bool.false_ne_true hc.symm

/-- `replAllGo` leaves the empty subject alone at any fuel. -/
theorem replAllGo_nil (pat rep : List Char) (fuel : Nat) :
    replAllGo pat rep fuel [] = [] := by
  cases fuel <;> rfl

/-- `replAllGo` does not depend on the fuel once the fuel covers the
subject's length (each step consumes at least one subject character). -/
theorem replAllGo_fuel (pat rep : List Char) :
    ∀ (fuel : Nat) (s : List Char) (fuel' : Nat),
      s.length ≤ fuel → s.length ≤ fuel' →
      replAllGo pat rep fuel s = replAllGo pat rep fuel' s := by
  intro fuel
  induction fuel with
  | zero =>
    intro s fuel' hs _
    have : s = [] := List.length_eq_zero.mp (Nat.le_zero.mp hs)
    subst this
    simp [replAllGo_nil]
  | succ f ih =>
    intro s fuel' hs hs'
    cases s with
    | nil => simp [replAllGo_nil]
    | cons c cs =>
      cases fuel' with
      | zero => simp at hs'
      | succ f' =>
        simp only [List.length_cons] at hs hs'
        simp only [replAllGo]
        by_cases h : startsWithSeq pat (c :: cs) = true
        · rw [if_pos h, if_pos h]
          congr 1
          apply ih
          · rw [List.length_drop]; omega
          · rw [List.length_drop]; omega
        · rw [if_neg h, if_neg h]
          congr 1
          apply ih <;> omega

/-- When the pattern starts at no position inside `a`, replacement over
`a ++ b` copies `a` and continues on `b`. -/
theorem replAllGo_append (pat rep b : List Char) :
    ∀ (a : List Char) (fuel : Nat),
      (a ++ b).length ≤ fuel →
      (∀ i, i < a.length → startsWithSeq pat ((a ++ b).drop i) = false) →
      replAllGo pat rep fuel (a ++ b)
        = a ++ replAllGo pat rep (fuel - a.length) b := by
  intro a
  induction a with
  | nil => intro fuel _ _; simp
  | cons c cs ih =>
    intro fuel hlen hocc
    cases fuel with
    | zero => simp [List.length_append] at hlen
    | succ f =>
      have h0 : startsWithSeq pat (c :: (cs ++ b)) = false := by
        simpa using hocc 0 (by simp)
      have hlen' : (cs ++ b).length ≤ f := by
        simp only [List.cons_append, List.length_cons] at hlen
        omega
      have hocc' : ∀ i, i < cs.length →
          startsWithSeq pat ((cs ++ b).drop i) = false := by
        intro i hi
        simpa using hocc (i + 1) (by simp only [List.length_cons]; omega)
      have hstep : replAllGo pat rep (f + 1) ((c :: cs) ++ b)
          = c :: replAllGo pat rep f (cs ++ b) := by
        simp only [List.cons_append, replAllGo]
        rw [if_neg (by simp [h0])]
        rfl
      rw [hstep, ih f hlen' hocc']
      have hfu : f + 1 - (c :: cs).length = f - cs.length := by
        simp only [List.length_cons]
        omega
      rw [hfu, List.cons_append]

/-- Python `replace` over `a ++ b` with no occurrence inside `a` copies
`a` and replaces inside `b`. -/
theorem pyReplace_append (pat rep a b : List Char)
    (hocc : ∀ i, i < a.length → startsWithSeq pat ((a ++ b).drop i) = false) :
    pyReplace (a ++ b) pat rep = a ++ pyReplace b pat rep := by
  unfold pyReplace
  rw [replAllGo_append pat rep b a (a ++ b).length (Nat.le_refl _) hocc]
  congr 1
  apply replAllGo_fuel
  · rw [List.length_append]; omega
  · exact Nat.le_refl _

/-- `pyReplace_append` packaged with the two sufficient conditions used
for filenames: the pattern does not occur in `a`, and no proper tail of
the pattern starts `b`. -/
theorem pyReplace_clean (pat rep a b : List Char)
    (ha : hasSubstr pat a = false)
    (hstrad : ∀ j, 0 < j → pat.drop j ≠ [] →
      startsWithSeq (pat.drop j) b = false) :
    pyReplace (a ++ b) pat rep = a ++ pyReplace b pat rep :=
  pyReplace_append pat rep a b (noOccur_shift pat a b ha hstrad)

/-- Every list starts with itself. -/
theorem startsWithSeq_refl : ∀ l : List Char, startsWithSeq l l = true
  | [] => rfl
  | c :: cs => by simp [startsWithSeq, startsWithSeq_refl cs]

/-- Replacing a non-empty pattern inside exactly that pattern yields the
replacement. -/
theorem pyReplace_self (pat rep : List Char) (hne : pat ≠ []) :
    pyReplace pat pat rep = rep := by
  cases pat with
  | nil => exact absurd rfl hne
  | cons p ps =>
    show replAllGo (p :: ps) rep (p :: ps).length (p :: ps) = rep
    simp only [List.length_cons, replAllGo]
    rw [if_pos (startsWithSeq_refl (p :: ps))]
    simp only [Nat.add_sub_cancel, List.drop_length, replAllGo_nil, List.append_nil]

/-- No proper tail of `jpg` starts `.jpg` (a tail starts with `p` or
`g`, never with `.`). -/
theorem strad_jpg :
    ∀ j, 0 < j → ("jpg".data.drop j) ≠ [] →
      startsWithSeq ("jpg".data.drop j) (".jpg".data) = false := by
  intro j hj hne
  match j with
  | 0 => omega
  | 1 => decide
  | 2 => decide
  | (k + 3) =>
    exfalso
    apply hne
    apply List.drop_eq_nil_of_le
    have h3 : "jpg".data.length = 3 := by decide
    omega

/-- No proper tail of `.png` starts `.png` (a proper tail starts with
`p`, `n` or `g`, never with `.`). -/
theorem strad_png :
    ∀ j, 0 < j → (".png".data.drop j) ≠ [] →
      startsWithSeq (".png".data.drop j) (".png".data) = false := by
  intro j hj hne
  match j with
  | 0 => omega
  | 1 => decide
  | 2 => decide
  | 3 => decide
  | (k + 4) =>
    exfalso
    apply hne
    apply List.drop_eq_nil_of_le
    have h4 : ".png".data.length = 4 := by decide
    omega

/-- `_log_write` appends exactly one newline-terminated line per pid to
the existing contents. -/
theorem log_write_eq (pids : List String) :
    ∀ c : String, log_write c pids = c ++ logLines pids := by
  induction pids with
  | nil =>
    intro c
    show c = c ++ ""
    rw [String.append_empty]
  | cons p ps ih =>
    intro c
    show log_write (c ++ p ++ "\n") ps = c ++ (p ++ "\n" ++ logLines ps)
    rw [ih]
    simp [String.append_assoc]

/-- `uniqueFirstAux` keeps a subsequence of its input. -/
theorem uniqueFirstAux_sublist : ∀ (seen l : List String),
    (uniqueFirstAux seen l).Sublist l := by
  intro seen l
  induction l generalizing seen with
  | nil => simp [uniqueFirstAux]
  | cons x xs ih =>
    simp only [uniqueFirstAux]
    by_cases hx : x ∈ seen
    · rw [if_pos hx]
      exact (ih seen).cons x
    · rw [if_neg hx]
      exact (ih (x :: seen)).cons₂ x

/-- Membership in `uniqueFirstAux`: the elements of the input that are
not in the accumulator. -/
theorem mem_uniqueFirstAux (a : String) : ∀ (seen l : List String),
    a ∈ uniqueFirstAux seen l ↔ a ∈ l ∧ a ∉ seen := by
  intro seen l
  induction l generalizing seen with
  | nil => simp [uniqueFirstAux]
  | cons x xs ih =>
    simp only [uniqueFirstAux]
    by_cases hx : x ∈ seen
    · rw [if_pos hx, ih seen]
      simp only [List.mem_cons]
      constructor
      · rintro ⟨h1, h2⟩
        exact ⟨Or.inr h1, h2⟩
      · rintro ⟨h1 | h1, h2⟩
        · subst h1
          exact absurd hx h2
        · exact ⟨h1, h2⟩
    · rw [if_neg hx]
      simp only [List.mem_cons, ih (x :: seen), List.mem_cons]
      constructor
      · rintro (rfl | ⟨h1, h2⟩)
        · exact ⟨Or.inl rfl, hx⟩
        · exact ⟨Or.inr h1, fun hs => h2 (Or.inr hs)⟩
      · rintro ⟨rfl | h1, h2⟩
        · exact Or.inl rfl
        · by_cases hax : a = x
          · exact Or.inl hax
          · exact Or.inr ⟨h1, fun hcon => hcon.elim hax h2⟩

/-- `uniqueFirstAux` returns a duplicate-free list. -/
theorem nodup_uniqueFirstAux : ∀ (seen l : List String),
    (uniqueFirstAux seen l).Nodup := by
  intro seen l
  induction l generalizing seen with
  | nil => simp [uniqueFirstAux]
  | cons x xs ih =>
    simp only [uniqueFirstAux]
    by_cases hx : x ∈ seen
    · rw [if_pos hx]
      exact ih seen
    · rw [if_neg hx]
      refine List.nodup_cons.mpr ⟨?_, ih (x :: seen)⟩
      intro hmem
      exact ((mem_uniqueFirstAux x (x :: seen) xs).mp hmem).2 (List.mem_cons_self x seen)

/-- `uniqueFirstAux` lists elements in order of their first occurrence
in the input: earlier output means a strictly smaller `indexOf`. -/
theorem pairwise_indexOf_uniqueFirstAux : ∀ (l seen : List String),
    List.Pairwise (fun a b => l.indexOf a < l.indexOf b) (uniqueFirstAux seen l) := by
  intro l
  induction l with
  | nil => intro seen; simp [uniqueFirstAux]
  | cons x xs ih =>
    intro seen
    simp only [uniqueFirstAux]
    by_cases hx : x ∈ seen
    · rw [if_pos hx]
      refine List.Pairwise.imp_of_mem ?_ (ih seen)
      intro a b ha hb hab
      have hax : x ≠ a := by
        intro h
        exact ((mem_uniqueFirstAux a seen xs).mp ha).2 (by rw [← h]; exact hx)
      have hbx : x ≠ b := by
        intro h
        exact ((mem_uniqueFirstAux b seen xs).mp hb).2 (by rw [← h]; exact hx)
      rw [List.indexOf_cons_ne xs hax, List.indexOf_cons_ne xs hbx]
      exact Nat.succ_lt_succ hab
    · rw [if_neg hx]
      refine List.Pairwise.cons ?_ ?_
      · intro b hb
        have hbx : x ≠ b := by
          intro h
          refine ((mem_uniqueFirstAux b (x :: seen) xs).mp hb).2 ?_
          rw [← h]
          exact List.mem_cons_self x seen
        rw [List.indexOf_cons_self, List.indexOf_cons_ne xs hbx]
        exact Nat.succ_pos _
      · refine List.Pairwise.imp_of_mem ?_ (ih (x :: seen))
        intro a b ha hb hab
        have hax : x ≠ a := by
          intro h
          refine ((mem_uniqueFirstAux a (x :: seen) xs).mp ha).2 ?_
          rw [← h]
          exact List.mem_cons_self x seen
        have hbx : x ≠ b := by
          intro h
          refine ((mem_uniqueFirstAux b (x :: seen) xs).mp hb).2 ?_
          rw [← h]
          exact List.mem_cons_self x seen
        rw [List.indexOf_cons_ne xs hax, List.indexOf_cons_ne xs hbx]
        exact Nat.succ_lt_succ hab

/-- `stepBatch` always records the dispatched batch and resets the task
list, whatever the outcome. -/
theorem stepBatch_dispatched (nthreads : Nat) (log_path : String)
    (fails : List String → Bool) (s : DlState) :
    (stepBatch nthreads log_path fails s).dispatched = s.dispatched ++ [s.task_pids]
    ∧ (stepBatch nthreads log_path fails s).task_pids = [] := by
  unfold stepBatch
  split <;> exact ⟨rfl, rfl⟩

/-- Through the loop, the identifiers dispatched so far together with
the pending task list extend the starting ones by a subsequence of the
remaining input: no identifier is dispatched twice. -/
theorem gsvLoopGo_flatten (nthreads : Nat) (log_path : String)
    (fails : List String → Bool) :
    ∀ (xs : List String) (i : Nat) (s : DlState),
      ∃ sub : List String, sub.Sublist xs ∧
        (gsvLoopGo nthreads log_path fails i xs s).dispatched.flatten
            ++ (gsvLoopGo nthreads log_path fails i xs s).task_pids
          = s.dispatched.flatten ++ s.task_pids ++ sub := by
  intro xs
  induction xs with
  | nil =>
    intro i s
    exact ⟨[], List.Sublist.refl [], by simp [gsvLoopGo]⟩
  | cons x xs ih =>
    intro i s
    simp only [gsvLoopGo]
    by_cases hc : i % nthreads ≠ 0 ∨ i = 0
    · rw [if_pos hc]
      obtain ⟨sub, hsub, heq⟩ := ih (i + 1) { s with task_pids := s.task_pids ++ [x] }
      refine ⟨x :: sub, hsub.cons₂ x, ?_⟩
      rw [heq]
      simp [List.append_assoc]
    · rw [if_neg hc]
      obtain ⟨sub, hsub, heq⟩ := ih (i + 1) (stepBatch nthreads log_path fails s)
      refine ⟨sub, hsub.cons x, ?_⟩
      rw [heq, (stepBatch_dispatched nthreads log_path fails s).1,
        (stepBatch_dispatched nthreads log_path fails s).2]
      simp [List.append_assoc]

/-- C1: the claim says the scheduler partitions `[a, b, c, d, e]` at
batch size 2 into the dispatched batches `[a, b]` then `[c, d]`, each
identifier in exactly one dispatched batch, with only the trailing `[e]`
subject to the documented trailing-batch decision.  Evaluating the
embedded loop at that scenario: the code dispatches `[a, b]` then `[d]` —
the identifier at every non-zero index divisible by `nthreads` (`c`
here) is silently dropped mid-list, and `e` sits in the never-flushed
trailing group. -/
theorem C1_code_eval :
    gsvBatches 2 ["a", "b", "c", "d", "e"] = [["a", "b"], ["d"]]
    ∧ gsvBatches 2 ["a", "b", "c", "d", "e"] ≠ [["a", "b"], ["c", "d"]] := by
  decide

/-- C2: counterexample to the claim as stated.  In the run over
`[a, b, c, d, e]` with `nthreads = 2` and every dispatch failing, the
dispatched batches have sizes 2 and 1, yet the error counter ends at
`4 = 2 * nthreads`, not at `3 = 2 + 1`: a failed batch of size `k = 1`
raised the counter by 2, not by `k`. -/
theorem C2_counterexample :
    (gsvLoop 2 "" (fun _ => true) ["a", "b", "c", "d", "e"] "").dispatched.map
        List.length = [2, 1]
    ∧ (gsvLoop 2 "" (fun _ => true) ["a", "b", "c", "d", "e"] "").errors = 4
    ∧ (4 : Nat) ≠ 2 + 1 := by
  decide

/-- C2 (amended): for every dispatched batch, if the batch download
raises then the error counter grows by exactly the configured batch size
`nthreads` and the processed counter is unchanged; if it succeeds the
processed counter grows by exactly `nthreads` and the error counter is
unchanged.  `nthreads` equals the batch's identifier count only for full
batches (dispatched batches after the first hold `nthreads - 1`). -/
theorem C2_amended_thm (nthreads : Nat) (log_path : String)
    (fails : List String → Bool) (s : DlState) :
    (fails s.task_pids = true →
        (stepBatch nthreads log_path fails s).errors = s.errors + nthreads
        ∧ (stepBatch nthreads log_path fails s).img_num = s.img_num)
    ∧ (fails s.task_pids = false →
        (stepBatch nthreads log_path fails s).img_num = s.img_num + nthreads
        ∧ (stepBatch nthreads log_path fails s).errors = s.errors) := by
  constructor <;> intro h <;> simp [stepBatch, h]

/-- Witness for C2 (amended) at a concrete failing batch of size 1 with
`nthreads = 2`. -/
theorem C2_amended_witness :
    (stepBatch 2 "" (fun _ => true) ⟨["d"], 2, 0, "", [["a", "b"]]⟩).errors = 2 + 2
    ∧ (stepBatch 2 "" (fun _ => true) ⟨["d"], 2, 0, "", [["a", "b"]]⟩).img_num = 0 :=
  (C2_amended_thm 2 "" (fun _ => true) ⟨["d"], 2, 0, "", [["a", "b"]]⟩).1 rfl

/-- C3: the claim says the dedup filter returns the requested
identifiers whose base filename is not among the existing panorama
outputs, so a re-run attempts exactly `S \ P`.  The code lists the
*top-level* output directory, which holds the `panorama` subdirectory
name and not the panorama files inside it: for `S = P = [p1]` (prior
output `panorama/p1.jpg` on disk, so the top-level listing is
`[panorama]`) it returns `[p1]` and re-attempts everything, while the
same filter applied to the panorama directory's own listing `[p1.jpg]`
would give `[] = S \ P`. -/
theorem C3_code_eval :
    check_already ["panorama"] ["p1"] = ["p1"]
    ∧ baseName "p1.jpg" = "p1"
    ∧ check_already ["p1.jpg"] ["p1"] = [] := by
  decide

/-- C4: counterexample to the claim as stated.  With the invalid
projection style `cylindrical` configured, the run still dispatches the
download batches `[a, b]` and `[d]` (network and filesystem work) before
the `ValueError` surfaces: the configuration error is not raised before
work begins. -/
theorem C4_counterexample :
    (download_gsv 2 "" ["cylindrical"] ["panorama"] ["a", "b", "c", "d", "e"]
        (fun _ => false) "").result = GsvResult.valueError
    ∧ (download_gsv 2 "" ["cylindrical"] ["panorama"] ["a", "b", "c", "d", "e"]
        (fun _ => false) "").state.dispatched = [["a", "b"], ["d"]] := by
  decide

/-- C4 (amended): for every run configured with at least one projection
style and some style outside `perspective`/`fisheye`, the `ValueError`
is raised after the download phase and before any projection work: the
full download loop runs first (its final state is exactly the loop's),
and no style is transformed. -/
theorem C4_amended_thm (nthreads : Nat) (log_path : String)
    (image_style listing csv_first_col : List String)
    (fails : List String → Bool) (log0 : String)
    (hne : image_style ≠ [])
    (hbad : image_style.all validStyle = false) :
    (download_gsv nthreads log_path image_style listing csv_first_col fails
        log0).result = GsvResult.valueError
    ∧ (download_gsv nthreads log_path image_style listing csv_first_col fails
        log0).transformed = []
    ∧ (download_gsv nthreads log_path image_style listing csv_first_col fails
        log0).state
      = gsvLoop nthreads log_path fails
          (check_already listing (read_pids csv_first_col)) log0 := by
  have hlen : 0 < image_style.length := List.length_pos.mpr hne
  simp [download_gsv, hlen, hbad]

/-- Witness for C4 (amended) at a concrete run with the invalid style
`cylindrical`. -/
theorem C4_amended_witness :
    (download_gsv 2 "" ["cylindrical"] ["panorama"] ["a", "b", "c", "d", "e"]
        (fun _ => false) "").result = GsvResult.valueError
    ∧ (download_gsv 2 "" ["cylindrical"] ["panorama"] ["a", "b", "c", "d", "e"]
        (fun _ => false) "").transformed = []
    ∧ (download_gsv 2 "" ["cylindrical"] ["panorama"] ["a", "b", "c", "d", "e"]
        (fun _ => false) "").state
      = gsvLoop 2 "" (fun _ => false)
          (check_already ["panorama"] (read_pids ["a", "b", "c", "d", "e"])) "" :=
  C4_amended_thm 2 "" ["cylindrical"] ["panorama"] ["a", "b", "c", "d", "e"]
    (fun _ => false) "" (by decide) (by decide)

/-- C5: a panorama output exists after fetch-and-assemble exactly when
every one of the `h_tiles * v_tiles` tile requests succeeded; when any
single tile request fails the result is `none` and no file (not even a
partial one) is written. -/
theorem C5_all_or_nothing {α : Type} (fetch : Nat × Nat → Option α)
    (h_tiles v_tiles : Nat) :
    (fetch_and_assemble fetch h_tiles v_tiles).isSome = true ↔
      ∀ c ∈ tileGrid h_tiles v_tiles, (fetch c).isSome = true := by
  unfold fetch_and_assemble
  by_cases h : ((tileGrid h_tiles v_tiles).map fetch).all Option.isSome = true
  · rw [if_pos h]
    constructor
    · intro _ c hc
      exact List.all_eq_true.mp h _ (List.mem_map_of_mem fetch hc)
    · intro _
      rfl
  · rw [if_neg h]
    constructor
    · intro hfalse
      exact absurd hfalse (by simp)
    · intro hall
      exfalso
      apply h
      rw [List.all_eq_true]
      intro x hx
      obtain ⟨c, hc, rfl⟩ := List.mem_map.mp hx
      exact hall c hc

/-- C6: with FOV 90 and size factor 100 the perspective phase makes
exactly four projection calls and produces exactly four output images,
one per heading 0, 90, 180, 270, each of height 225 and width 400
pixels, at pitch fixed to 0. -/
theorem C6_perspective_shape :
    perspective_outputs 100 =
      [(0, 225, 400), (90, 225, 400), (180, 225, 400), (270, 225, 400)]
    ∧ perspective_calls 100 =
      [⟨0, 90, 0, 225, 400⟩, ⟨90, 90, 0, 225, 400⟩,
        ⟨180, 90, 0, 225, 400⟩, ⟨270, 90, 0, 225, 400⟩] := by
  decide

/-- C7: for every batch, exactly when the batch failed and a log
destination is configured, the batch's identifiers are appended to the
existing log contents, one per line, each line newline-terminated (the
prior contents — earlier runs included, since the file is opened in
append mode — are preserved as a prefix); with no log destination, and
on every successful batch, the log is unchanged. -/
theorem C7_failed_batch_logging (nthreads : Nat) (log_path : String)
    (fails : List String → Bool) (s : DlState) :
    (fails s.task_pids = true → log_path ≠ "" →
        (stepBatch nthreads log_path fails s).log = s.log ++ logLines s.task_pids)
    ∧ (fails s.task_pids = true → log_path = "" →
        (stepBatch nthreads log_path fails s).log = s.log)
    ∧ (fails s.task_pids = false →
        (stepBatch nthreads log_path fails s).log = s.log) := by
  refine ⟨?_, ?_, ?_⟩
  · intro h hlp
    simp [stepBatch, h, hlp, log_write_eq]
  · intro h hlp
    simp [stepBatch, h, hlp]
  · intro h
    simp [stepBatch, h]

/-- Witness for C7 at a concrete failing batch with a configured log
holding earlier contents. -/
theorem C7_failed_batch_logging_witness :
    (stepBatch 5 "error_log.txt" (fun _ => true)
        ⟨["p1", "p2"], 0, 0, "old\n", []⟩).log = "old\n" ++ logLines ["p1", "p2"] :=
  (C7_failed_batch_logging 5 "error_log.txt" (fun _ => true)
    ⟨["p1", "p2"], 0, 0, "old\n", []⟩).1 rfl (by decide)

/-- C8: counterexample to the claim as stated.  Renaming is by textual
substring replacement, so for the source file `ajpg.jpg` (identifier
`ajpg`) the perspective output at heading 0 is named
`apng_Direction_0_FOV_90_aspect_9--16_raw.png`, not
`ajpg_Direction_0_FOV_90_aspect_9--16_raw.png` as the claimed pattern
requires. -/
theorem C8_counterexample :
    perspective_filename ("ajpg" ++ ".jpg") 0 90 =
      "apng_Direction_0_FOV_90_aspect_9--16_raw.png"
    ∧ perspective_filename ("ajpg" ++ ".jpg") 0 90 ≠
      "ajpg" ++ ("_Direction_" ++ toString 0 ++ "_FOV_90_aspect_9--16_raw.png") := by
  decide

/-- C8 (amended): for every perspective output of a source panorama
`<identifier>.jpg` whose identifier contains neither `jpg` nor `.png`
as a substring, the output filename is exactly
`<identifier>_Direction_<theta>_FOV_90_aspect_9--16_raw.png`, encoding
heading, field of view and the 9:16 aspect ratio, one file per heading.
(The renaming replaces every occurrence of the substrings `jpg` and then
`.png`, so identifiers containing them are mangled.) -/
theorem C8_amended_thm (id : String) (theta : Nat)
    (h1 : hasSubstr "jpg".data id.data = false)
    (h2 : hasSubstr ".png".data id.data = false) :
    perspective_filename (id ++ ".jpg") theta 90 =
      id ++ ("_Direction_" ++ toString theta ++ "_FOV_90_aspect_9--16_raw.png") := by
  have hA : (path_output_name (id ++ ".jpg")).data = id.data ++ ".png".data := by
    show pyReplace (id ++ ".jpg").data "jpg".data "png".data
      = id.data ++ ".png".data
    rw [String.data_append]
    rw [pyReplace_clean "jpg".data "png".data id.data ".jpg".data h1 strad_jpg]
    have hc : pyReplace ".jpg".data "jpg".data "png".data = ".png".data := by decide
    rw [hc]
  apply String.ext
  show pyReplace (path_output_name (id ++ ".jpg")).data ".png".data
      ("_Direction_" ++ toString theta ++ "_FOV_" ++ toString 90 ++ "_aspect_"
        ++ toString 9 ++ "--" ++ toString 16 ++ "_raw.png").data = _
  rw [hA]
  rw [pyReplace_clean ".png".data
    ("_Direction_" ++ toString theta ++ "_FOV_" ++ toString 90 ++ "_aspect_"
      ++ toString 9 ++ "--" ++ toString 16 ++ "_raw.png").data
    id.data ".png".data h2 strad_png]
  rw [pyReplace_self ".png".data
    ("_Direction_" ++ toString theta ++ "_FOV_" ++ toString 90 ++ "_aspect_"
      ++ toString 9 ++ "--" ++ toString 16 ++ "_raw.png").data (by decide)]
  rw [String.data_append]
  congr 1
  have hT : "_Direction_" ++ toString theta ++ "_FOV_" ++ toString (90 : Nat)
      ++ "_aspect_" ++ toString (9 : Nat) ++ "--" ++ toString (16 : Nat)
      ++ "_raw.png"
      = "_Direction_" ++ toString theta ++ "_FOV_90_aspect_9--16_raw.png" := by
    simp only [String.append_assoc]
    rfl
  exact congrArg String.data hT

/-- Witness for C8 (amended) at the clean identifier `pano1` and
heading 0. -/
theorem C8_amended_witness :
    perspective_filename ("pano1" ++ ".jpg") 0 90 =
      "pano1" ++ ("_Direction_" ++ toString 0 ++ "_FOV_90_aspect_9--16_raw.png") :=
  C8_amended_thm "pano1" 0 (by decide) (by decide)

/-- C9: counterexample to the claim as stated.  `random.sample` draws
`nthreads = 2` agents for every dispatch, but the second dispatched
batch of the run over `[a, b, c, d, e]` holds a single identifier, so
the agents are not one per identifier of the batch. -/
theorem C9_counterexample :
    ((gsvBatches 2 ["a", "b", "c", "d", "e"]).getD 1 []).length = 1
    ∧ IsSample ["u1", "u2"] 2 ["u1", "u2"]
    ∧ ¬ ((2 : Nat) = ((gsvBatches 2 ["a", "b", "c", "d", "e"]).getD 1 []).length) :=
  ⟨by decide, ⟨[0, 1], by decide, by decide, by decide, by decide⟩, by decide⟩

/-- C9 (amended): for every dispatched batch, the scheduler samples
exactly `nthreads` (the configured batch size) user-agent strings from
the pool without replacement, so when the pool holds no duplicate
strings the batch's agents are pairwise distinct and all come from the
pool; dispatched batches after the first hold `nthreads - 1`
identifiers, so the sample is one agent per identifier only for the
first batch. -/
theorem C9_amended_thm (pool out : List String) (k : Nat)
    (hpool : pool.Nodup) (hsample : IsSample pool k out) :
    out.length = k ∧ out.Nodup ∧ ∀ a ∈ out, a ∈ pool := by
  obtain ⟨idxs, hnd, hlen, hlt, heq⟩ := hsample
  subst heq
  refine ⟨by simpa using hlen, ?_, ?_⟩
  · refine List.Nodup.map_on ?_ hnd
    intro i hi j hj hij
    have hi' := hlt i hi
    have hj' := hlt j hj
    rw [List.getD_eq_getElem pool "" hi', List.getD_eq_getElem pool "" hj'] at hij
    exact (List.Nodup.getElem_inj_iff hpool).mp hij
  · intro a ha
    obtain ⟨i, hi, rfl⟩ := List.mem_map.mp ha
    rw [List.getD_eq_getElem pool "" (hlt i hi)]
    exact List.getElem_mem (hlt i hi)

/-- Witness for C9 (amended): sampling the indices 0 and 2 from a
three-agent pool. -/
theorem C9_amended_witness :
    (["u1", "u3"] : List String).length = 2
    ∧ (["u1", "u3"] : List String).Nodup
    ∧ ∀ a ∈ (["u1", "u3"] : List String), a ∈ (["u1", "u2", "u3"] : List String) :=
  C9_amended_thm ["u1", "u2", "u3"] ["u1", "u3"] 2 (by decide)
    ⟨[0, 2], by decide, by decide, by decide, by decide⟩

/-- C10: the identifier list fed to the dedup filter and the scheduler
is the CSV's first column with duplicates removed — duplicate-free, a
subsequence of the column with the same members, listed in order of
first occurrence (`indexOf` gives the first occurrence, and earlier
output position means strictly smaller `indexOf`) — and in any run over
that list each distinct identifier occurs in at most one dispatched
batch, at most once. -/
theorem C10_read_pids_unique (csv_first_col listing : List String)
    (nthreads : Nat) (log_path log0 : String) (fails : List String → Bool) :
    (read_pids csv_first_col).Nodup
    ∧ (∀ a, a ∈ read_pids csv_first_col ↔ a ∈ csv_first_col)
    ∧ (read_pids csv_first_col).Sublist csv_first_col
    ∧ List.Pairwise (fun a b => csv_first_col.indexOf a < csv_first_col.indexOf b)
        (read_pids csv_first_col)
    ∧ ((gsvLoop nthreads log_path fails
          (check_already listing (read_pids csv_first_col)) log0).dispatched.flatten).Nodup := by
  refine ⟨nodup_uniqueFirstAux [] csv_first_col, ?_,
    uniqueFirstAux_sublist [] csv_first_col,
    pairwise_indexOf_uniqueFirstAux csv_first_col [], ?_⟩
  · intro a
    unfold read_pids
    rw [mem_uniqueFirstAux]
    simp
  · have hnd : (check_already listing (read_pids csv_first_col)).Nodup := by
      unfold check_already
      exact List.Nodup.filter _ (nodup_uniqueFirstAux [] csv_first_col)
    unfold gsvLoop
    obtain ⟨sub, hsub, heq⟩ := gsvLoopGo_flatten nthreads log_path fails
      (check_already listing (read_pids csv_first_col)) 0
      { task_pids := [], errors := 0, img_num := 0, log := log0, dispatched := [] }
    simp only [List.flatten_nil, List.nil_append] at heq
    refine List.Nodup.sublist (List.Sublist.trans ?_ hsub) hnd
    rw [← heq]
    exact List.sublist_append_left _ _

end Streetscope
